import Mathlib

/-!
Shallow embedding of the Bank-App repository (src/accounts.py, src/logic.py).

Modelling conventions:
* Python floats are modelled as exact rationals (ℚ).  Every concrete value
  appearing in the claims (100.00, 0.02, 153.00, …) is computed exactly by
  the corresponding IEEE double arithmetic in the source as well, so the
  rational model is faithful on the values the claims speak about.
* Python's name mangling makes `self.__account_balance` inside the class
  `SavingsAccount` refer to the attribute `_SavingsAccount__account_balance`,
  which is distinct from `_Account__account_balance` created in
  `Account.__init__` and read by `Account.get_balance`.  The embedding keeps
  both attributes: `accountBalance` (the one `get_balance` reads) and
  `shadowBalance` (the one `SavingsAccount.set_balance` writes on its
  below-minimum branch; it is never read by any method).
* The CSV record store `dont_look/users.csv` is modelled as
  `Option CSVFile`: `none` is an absent file.  Numeric cells are kept as the
  strings the program writes (`str(...)`) and reads (`float(...)`/`int(...)`).
-/

/-! ## src/accounts.py : class Account -/

/-- State of a Python `Account` object: the attributes
`_Account__account_name` and `_Account__account_balance`. -/
structure Account where
  name : String
  balance : ℚ
deriving DecidableEq, Repr

namespace Account

/-- Model of `Account.set_balance`: `if value >= 0: self.__account_balance = value
else: self.__account_balance = 0`. -/
def set_balance (a : Account) (value : ℚ) : Account :=
  if 0 ≤ value then { a with balance := value } else { a with balance := 0 }

/-- Model of `Account.__init__(name, balance)`: assigns the name and balance
attributes, then calls `self.set_balance(balance)` (for a plain `Account`
the dynamic dispatch resolves to `Account.set_balance`). -/
def make (name : String) (balance : ℚ) : Account :=
  Account.set_balance { name := name, balance := balance } balance

/-- Model of `Account.deposit`: `if amount > 0: self.__account_balance += amount;
return True` else `return False`. -/
def deposit (a : Account) (amount : ℚ) : Account × Bool :=
  if 0 < amount then ({ a with balance := a.balance + amount }, true)
  else (a, false)

/-- Model of `Account.get_balance`. -/
def get_balance (a : Account) : ℚ := a.balance

/-- Model of `Account.get_name`. -/
def get_name (a : Account) : String := a.name

/-- Model of `Account.withdraw`: `if amount > 0 and amount <= self.get_balance():
self.__account_balance -= amount; return True` else `return False`. -/
def withdraw (a : Account) (amount : ℚ) : Account × Bool :=
  if 0 < amount ∧ amount ≤ a.get_balance then
    ({ a with balance := a.balance - amount }, true)
  else (a, false)

/-- Model of `Account.set_name`: `self.__account_name = value`. -/
def set_name (a : Account) (value : String) : Account := { a with name := value }

end Account

/-! ## src/accounts.py : class SavingsAccount -/

/-- State of a Python `SavingsAccount` object.  `accountBalance` is the
inherited attribute `_Account__account_balance` (the one `get_balance`
reads); `shadowBalance` is `_SavingsAccount__account_balance`, an attribute
that only exists once `SavingsAccount.set_balance` takes its
below-MINIMUM branch (Python name mangling); no method ever reads it.
`depositCount` is `_SavingsAccount__deposit_count`. -/
structure SavingsAccount where
  name : String
  accountBalance : ℚ
  shadowBalance : Option ℚ
  depositCount : ℤ
deriving DecidableEq, Repr

namespace SavingsAccount

/-- The constant `SavingsAccount.MINIMUM = 100.0`. -/
def MINIMUM : ℚ := 100.0

/-- The constant `SavingsAccount.RATE = 0.02`. -/
def RATE : ℚ := 0.02

/-- Here `SavingsAccount.get_balance` is the inherited `Account.get_balance`,
which reads `_Account__account_balance`. -/
def get_balance (s : SavingsAccount) : ℚ := s.accountBalance

/-- Here `SavingsAccount.get_name` is the inherited `Account.get_name`. -/
def get_name (s : SavingsAccount) : String := s.name

/-- Model of `SavingsAccount.get_deposit_counter`. -/
def get_deposit_counter (s : SavingsAccount) : ℤ := s.depositCount

/-- Model of `SavingsAccount.set_balance`:
`if value < self.MINIMUM: self.__account_balance = self.MINIMUM`
— inside class `SavingsAccount` the mangled attribute is
`_SavingsAccount__account_balance`, i.e. the shadow field —
`else: super().set_balance(value)`, which is `Account.set_balance` acting
on `_Account__account_balance`. -/
def set_balance (s : SavingsAccount) (value : ℚ) : SavingsAccount :=
  if value < MINIMUM then { s with shadowBalance := some MINIMUM }
  else if 0 ≤ value then { s with accountBalance := value }
  else { s with accountBalance := 0 }

/-- Model of `SavingsAccount.__init__(name)`: calls
`super().__init__(name, self.MINIMUM)` — which assigns
`_Account__account_balance = MINIMUM` and then calls `self.set_balance(MINIMUM)`,
dispatching dynamically to `SavingsAccount.set_balance` — and then sets
`self.__deposit_count = 0`. -/
def make (name : String) : SavingsAccount :=
  let s0 : SavingsAccount :=
    { name := name, accountBalance := MINIMUM, shadowBalance := none, depositCount := 0 }
  { SavingsAccount.set_balance s0 MINIMUM with depositCount := 0 }

/-- Model of `SavingsAccount.apply_interest`:
`self.set_balance(self.get_balance() + (self.get_balance() * self.RATE))`,
where `self.set_balance` dispatches to `SavingsAccount.set_balance`. -/
def apply_interest (s : SavingsAccount) : SavingsAccount :=
  s.set_balance (s.get_balance + s.get_balance * RATE)

/-- Model of `SavingsAccount.deposit`: `if amount > 0:` increment
`self.__deposit_count`, call `super().deposit(amount)` (whose own
`amount > 0` test adds the amount to `_Account__account_balance`;
its boolean result is discarded), then
`if self.__deposit_count % 5 == 0: self.apply_interest()`; `return True`.
Otherwise `return False`. -/
def deposit (s : SavingsAccount) (amount : ℚ) : SavingsAccount × Bool :=
  if 0 < amount then
    let s1 := { s with depositCount := s.depositCount + 1 }
    let s2 := if 0 < amount then { s1 with accountBalance := s1.accountBalance + amount } else s1
    let s3 := if s2.depositCount % 5 = 0 then s2.apply_interest else s2
    (s3, true)
  else (s, false)

/-- Model of `SavingsAccount.withdraw`:
`if amount > 0 and (self.get_balance() - amount) >= self.MINIMUM: return
super().withdraw(amount)` — `Account.withdraw` re-checks
`amount > 0 and amount <= self.get_balance()` — `return False` otherwise. -/
def withdraw (s : SavingsAccount) (amount : ℚ) : SavingsAccount × Bool :=
  if 0 < amount ∧ MINIMUM ≤ s.get_balance - amount then
    if 0 < amount ∧ amount ≤ s.get_balance then
      ({ s with accountBalance := s.accountBalance - amount }, true)
    else (s, false)
  else (s, false)

/-- Here `SavingsAccount.set_name` is the inherited `Account.set_name`. -/
def set_name (s : SavingsAccount) (value : String) : SavingsAccount :=
  { s with name := value }

end SavingsAccount

/-! ## Operation sequences (for the reachability invariants) -/

/-- One public mutating call on a plain `Account`, as listed in the
balance-floor claim: deposit, withdraw, or set_balance. -/
inductive AccOp where
  | dep (amount : ℚ)
  | wd (amount : ℚ)
  | setBal (value : ℚ)
deriving DecidableEq, Repr

/-- Apply one `AccOp` to an `Account` (the boolean result is dropped). -/
def Account.applyOp (a : Account) : AccOp → Account
  | .dep q => (a.deposit q).1
  | .wd q => (a.withdraw q).1
  | .setBal q => a.set_balance q

/-- Run a sequence of public calls on an `Account`. -/
def Account.runOps (a : Account) (ops : List AccOp) : Account :=
  ops.foldl Account.applyOp a

/-- One public mutating call on a `SavingsAccount`: deposit, withdraw,
set_balance, or apply_interest. -/
inductive SavOp where
  | dep (amount : ℚ)
  | wd (amount : ℚ)
  | setBal (value : ℚ)
  | interest
deriving DecidableEq, Repr

/-- Apply one `SavOp` to a `SavingsAccount`. -/
def SavingsAccount.applyOp (s : SavingsAccount) : SavOp → SavingsAccount
  | .dep q => (s.deposit q).1
  | .wd q => (s.withdraw q).1
  | .setBal q => s.set_balance q
  | .interest => s.apply_interest

/-- Run a sequence of public calls on a `SavingsAccount`. -/
def SavingsAccount.runOps (s : SavingsAccount) (ops : List SavOp) : SavingsAccount :=
  ops.foldl SavingsAccount.applyOp s

/-! ## Decimal text: models of Python `str(float)`, `str(int)`, `float(...)`, `int(...)`

The program writes numeric CSV cells with `str(...)` and reads them back
with `float(...)` / `int(...)`.  Python renders a float using the smallest
number of fractional digits that reproduces the value (always at least
one, e.g. `str(153.0) == "153.0"`), and `float`/`int` parse optionally
signed decimal digit strings.  The functions below model this for the
exact rationals the embedding uses. -/

/-- The digit character for `d` (`0 ≤ d ≤ 9`). -/
def digitChar (d : ℕ) : Char := Char.ofNat (48 + d)

/-- Value of a digit character, `none` for a non-digit. -/
def digitVal (c : Char) : Option ℕ :=
  if 48 ≤ c.toNat ∧ c.toNat ≤ 57 then some (c.toNat - 48) else none

/-- Little-endian decimal digits of `n`, with explicit fuel so that the
recursion is structural (the fuel is always instantiated with `n` itself,
which bounds the number of digits). -/
def natDigitsRevF : ℕ → ℕ → List Char
  | 0, _ => []
  | fuel + 1, n => if n = 0 then [] else digitChar (n % 10) :: natDigitsRevF fuel (n / 10)

/-- Big-endian decimal rendering of a natural number (`"0"` for zero),
exactly the digit string Python prints for a non-negative integer. -/
def renderNat (n : ℕ) : List Char :=
  if n = 0 then [Char.ofNat 48] else (natDigitsRevF n n).reverse

/-- Left-pad a digit list with zeros up to length `k`. -/
def padZeros (k : ℕ) (cs : List Char) : List Char :=
  List.replicate (k - cs.length) (Char.ofNat 48) ++ cs

/-- Accumulator pass of decimal parsing: consumes digit characters,
folding `acc * 10 + d`; fails on the first non-digit. -/
def parseDigitsAux : List Char → ℕ → Option ℕ
  | [], acc => some acc
  | c :: cs, acc =>
    match digitVal c with
    | some d => parseDigitsAux cs (acc * 10 + d)
    | none => none

/-- Parse a non-empty all-digit string to a natural number. -/
def parseDigits (cs : List Char) : Option ℕ :=
  if cs.isEmpty then none else parseDigitsAux cs 0

/-- 2-adic valuation with structural fuel (`twoAdicF n n` is the exponent
of 2 in `n` for `n > 0`). -/
def twoAdicF : ℕ → ℕ → ℕ
  | 0, _ => 0
  | fuel + 1, n => if n % 2 = 0 ∧ n ≠ 0 then twoAdicF fuel (n / 2) + 1 else 0

/-- 5-adic valuation with structural fuel. -/
def fiveAdicF : ℕ → ℕ → ℕ
  | 0, _ => 0
  | fuel + 1, n => if n % 5 = 0 ∧ n ≠ 0 then fiveAdicF fuel (n / 5) + 1 else 0

/-- Number of fractional decimal digits needed for `q` when its
denominator is of the form `2^a * 5^b` (Python prints the shortest
faithful fraction). -/
def decExp (q : ℚ) : ℕ := max (twoAdicF q.den q.den) (fiveAdicF q.den q.den)

/-- Fractional digits Python uses for `q`: at least one (`str(153.0)` is
`"153.0"`, never `"153"`). -/
def pyFracDigits (q : ℚ) : ℕ := max (decExp q) 1

/-- Whether `q` is exactly representable with `pyFracDigits q` decimal digits;
holds for every value a Python float can take (their denominators are
powers of two). -/
def IsDec (q : ℚ) : Prop := 10 ^ pyFracDigits q % q.den = 0

instance (q : ℚ) : Decidable (IsDec q) := by unfold IsDec; infer_instance

/-- Model of Python `str(x)` for a float `x` (as the character list):
optional minus sign, integer part, `.`, and the fractional part padded to
`pyFracDigits` digits. -/
def pyStrFloatChars (q : ℚ) : List Char :=
  (if q.num < 0 then [Char.ofNat 45] else []) ++
    renderNat ((q.num * (10 : ℤ) ^ pyFracDigits q / q.den).natAbs / 10 ^ pyFracDigits q) ++
    [Char.ofNat 46] ++
    padZeros (pyFracDigits q)
      (renderNat ((q.num * (10 : ℤ) ^ pyFracDigits q / q.den).natAbs % 10 ^ pyFracDigits q))

/-- Model of Python `str(x)` for a float `x`, as a `String`. -/
def pyStrFloat (q : ℚ) : String := ⟨pyStrFloatChars q⟩

/-- Model of Python `str(n)` for an int `n`. -/
def pyStrInt (n : ℤ) : String :=
  ⟨(if n < 0 then [Char.ofNat 45] else []) ++ renderNat n.natAbs⟩

/-- Strip one optional leading sign; returns (isNegative, rest). -/
def stripSign : List Char → Bool × List Char
  | c :: cs => if c = Char.ofNat 45 then (true, cs) else if c = Char.ofNat 43 then (false, cs) else (false, c :: cs)
  | [] => (false, [])

/-- Model of Python `float(s)` on the decimal strings this program can
meet: optional sign, then digits with at most one point and at least one
digit (`"153."`, `".5"` parse; `""`, `"."`, `"abc"`, `"1.2.3"` raise
`ValueError`, modelled as `none`).  Exponents, infinities, NaN and
underscores never occur in the store this program writes.
`pyFloatUnsigned` handles the digits-and-point part after the sign. -/
def pyFloatUnsigned (cs : List Char) : Option ℚ :=
  let ip := cs.takeWhile (fun c => c ≠ Char.ofNat 46)
  let rest2 := cs.dropWhile (fun c => c ≠ Char.ofNat 46)
  match rest2 with
  | [] =>
    match parseDigits ip with
    | some n => some (n : ℚ)
    | none => none
  | _ :: fp =>
    if ip.isEmpty ∧ fp.isEmpty then none
    else
      match (if ip.isEmpty then some 0 else parseDigits ip),
          (if fp.isEmpty then some 0 else parseDigits fp) with
      | some i, some f => some ((i : ℚ) + (f : ℚ) / (10 : ℚ) ^ fp.length)
      | _, _ => none

def pyFloatOfChars (cs : List Char) : Option ℚ :=
  let (neg, rest) := stripSign cs
  (pyFloatUnsigned rest).map (fun v => if neg then -v else v)

/-- Model of Python `float(s)` on a `String`. -/
def pyFloat? (s : String) : Option ℚ := pyFloatOfChars s.data

/-- Model of Python `int(s)`: optional sign then a non-empty digit string
(`int("12.0")` raises, modelled as `none`). -/
def pyIntOfChars (cs : List Char) : Option ℤ :=
  let (neg, rest) := stripSign cs
  match parseDigits rest with
  | some n => some (if neg then -(n : ℤ) else (n : ℤ))
  | none => none

/-- Model of Python `int(s)` on a `String`. -/
def pyInt? (s : String) : Option ℤ := pyIntOfChars s.data

/-- Two-decimal money rendering, following the specification words
"money amounts rendered with two-decimal precision" (the `f"{x:.2f}"`
format); stated for comparison with what the source actually writes. -/
def specTwoDecimalRender (q : ℚ) : String :=
  ⟨(if q.num < 0 then [Char.ofNat 45] else []) ++
    renderNat ((q.num * 100 / q.den).natAbs / 100) ++ [Char.ofNat 46] ++
    padZeros 2 (renderNat ((q.num * 100 / q.den).natAbs % 100))⟩

/-! ## src/logic.py : the record store `dont_look/users.csv` -/

/-- One data row of `users.csv`, with the columns
`user, password, balance, deposit_counter, savings_balance`.  Numeric
cells are kept as the text the file holds. -/
structure Row where
  user : String
  password : String
  balance : String
  deposit_counter : String
  savings_balance : String
deriving DecidableEq, Repr

/-- The CSV file: whether the header row is present, and the data rows.
Every file this program creates has the header; `header = false` models a
byte-empty file (for which `file.tell() == 0` in `add_user`). -/
structure CSVFile where
  header : Bool
  rows : List Row
deriving DecidableEq, Repr

/-- The whole backing store: `none` models an absent
`dont_look/users.csv` (`FileNotFoundError` on open for reading). -/
abbrev Store := Option CSVFile

/-- Registration failure: `add_user` raises
`ValueError("Username ... already exists...")`. -/
inductive RegErr where
  | duplicateOwner
deriving DecidableEq, Repr

/-- Load failure taxonomy of `get_user_details`: `notFound` is the
`ValueError("User not found")` raised when no row matches or the file is
absent; `malformedRecord` is the `ValueError` that `float(...)`/`int(...)`
raise (with a conversion message, distinguishable from the not-found
message) when a matching row has an unparseable numeric cell. -/
inductive LoadErr where
  | notFound
  | malformedRecord
deriving DecidableEq, Repr

/-- The row `add_user` appends:
`{"user": user, "password": password, "balance": 0.0,
"deposit_counter": 0, "savings_balance": 0.0}`; the csv writer renders
the values with `str`, so the cells are `"0.0"`, `"0"`, `"0.0"`. -/
def newUserRow (user password : String) : Row :=
  { user := user, password := password, balance := pyStrFloat 0,
    deposit_counter := pyStrInt 0, savings_balance := pyStrFloat 0 }

/-- Model of `add_user(user, password)`: scans the file (if present) for an
existing row with the same `user`; if found, raises `ValueError` and the
file is left as it was.  Otherwise opens the file in append mode
(creating it when absent), writes the header when `file.tell() == 0`
(absent or byte-empty file), and appends the new default row.
The result is the error (if any) paired with the resulting store. -/
def add_user (user password : String) (store : Store) : Option RegErr × Store :=
  let user_exists :=
    match store with
    | none => false
    | some f => f.rows.any (fun r => r.user == user)
  if user_exists then (some RegErr.duplicateOwner, store)
  else
    match store with
    | none => (none, some { header := true, rows := [newUserRow user password] })
    | some f =>
      if f.header = false ∧ f.rows = [] then
        (none, some { header := true, rows := [newUserRow user password] })
      else
        (none, some { f with rows := f.rows ++ [newUserRow user password] })

/-- Model of `get_user_details(user)`: returns, for the first row whose `user`
cell matches, `Account(user, float(balance))`, `int(deposit_counter)`
and `float(savings_balance)`.  An absent file or no matching row ends in
`raise ValueError("User not found")`; an unparseable numeric cell makes
`float`/`int` raise their own `ValueError` (modelled `malformedRecord`). -/
def get_user_details (user : String) (store : Store) :
    Except LoadErr (Account × ℤ × ℚ) :=
  match store with
  | none => Except.error LoadErr.notFound
  | some f =>
    match f.rows.find? (fun r => r.user == user) with
    | none => Except.error LoadErr.notFound
    | some r =>
      match pyFloat? r.balance, pyInt? r.deposit_counter, pyFloat? r.savings_balance with
      | some b, some d, some sb => Except.ok (Account.make user b, d, sb)
      | _, _, _ => Except.error LoadErr.malformedRecord

/-- The row update `set_account_details` performs on a matching row:
`row["balance"] = str(account.get_balance())`,
`row["deposit_counter"] = str(savings_account.get_deposit_counter())`
(note: the `deposit_counter` function argument is NOT used),
`row["savings_balance"] = str(savings_account.get_balance())`. -/
def updateRow (user : String) (account : Account) (savings_account : SavingsAccount)
    (r : Row) : Row :=
  if r.user == user then
    { r with balance := pyStrFloat account.get_balance,
             deposit_counter := pyStrInt savings_account.get_deposit_counter,
             savings_balance := pyStrFloat savings_account.get_balance }
  else r

/-- Model of `set_account_details(user, account, deposit_counter, savings_account)`:
reads every row, updating the matching ones via `updateRow`, then
rewrites the whole file, writing the header first.  When the file is
absent the `FileNotFoundError` is caught and printed and nothing is
written. -/
def set_account_details (user : String) (account : Account) (deposit_counter : ℤ)
    (savings_account : SavingsAccount) (store : Store) : Store :=
  match store with
  | none => none
  | some f =>
    some { header := true,
           rows := f.rows.map (updateRow user account savings_account) }

/-! ## Lemmas about decimal rendering and parsing -/

theorem digitVal_digitChar : ∀ d : ℕ, d < 10 → digitVal (digitChar d) = some d := by decide

theorem digitChar_ne_dot : ∀ d : ℕ, d < 10 → digitChar d ≠ Char.ofNat 46 := by decide

theorem digitChar_ne_minus : ∀ d : ℕ, d < 10 → digitChar d ≠ Char.ofNat 45 := by decide

theorem digitChar_ne_plus : ∀ d : ℕ, d < 10 → digitChar d ≠ Char.ofNat 43 := by decide

theorem parseDigitsAux_append (xs ys : List Char) (acc : ℕ) :
    parseDigitsAux (xs ++ ys) acc =
      (parseDigitsAux xs acc).bind (fun a => parseDigitsAux ys a) := by
  induction xs generalizing acc with
  | nil => simp [parseDigitsAux]
  | cons c cs ih =>
    simp only [List.cons_append, parseDigitsAux]
    cases digitVal c with
    | none => simp
    | some d => simp [ih]

theorem mem_natDigitsRevF (fuel n : ℕ) (c : Char) (hc : c ∈ natDigitsRevF fuel n) :
    ∃ d, d < 10 ∧ c = digitChar d := by
  induction fuel generalizing n with
  | zero => simp [natDigitsRevF] at hc
  | succ fuel ih =>
    by_cases hn : n = 0
    · simp [natDigitsRevF, hn] at hc
    · simp only [natDigitsRevF, if_neg hn, List.mem_cons] at hc
      rcases hc with h | h
      · exact ⟨n % 10, Nat.mod_lt _ (by norm_num), h⟩
      · exact ih _ h

theorem mem_renderNat (n : ℕ) (c : Char) (hc : c ∈ renderNat n) :
    ∃ d, d < 10 ∧ c = digitChar d := by
  unfold renderNat at hc
  split at hc
  · simp at hc
    exact ⟨0, by norm_num, by simp [hc, digitChar]⟩
  · rw [List.mem_reverse] at hc
    exact mem_natDigitsRevF _ _ _ hc

theorem parseDigitsAux_natDigitsRevF (fuel : ℕ) :
    ∀ n acc, n ≤ fuel →
      parseDigitsAux ((natDigitsRevF fuel n).reverse) acc =
        some (acc * 10 ^ (natDigitsRevF fuel n).length + n) := by
  induction fuel with
  | zero =>
    intro n acc hn
    interval_cases n
    simp [natDigitsRevF, parseDigitsAux]
  | succ fuel ih =>
    intro n acc hn
    by_cases hn0 : n = 0
    · simp [natDigitsRevF, hn0, parseDigitsAux]
    · have hdiv : n / 10 ≤ fuel := by
        have : n / 10 < n := Nat.div_lt_self (Nat.pos_of_ne_zero hn0) (by norm_num)
        omega
      simp only [natDigitsRevF, if_neg hn0, List.reverse_cons]
      rw [parseDigitsAux_append, ih _ acc hdiv]
      simp only [Option.bind_some, parseDigitsAux,
        digitVal_digitChar (n % 10) (Nat.mod_lt _ (by norm_num))]
      have : (acc * 10 ^ (natDigitsRevF fuel (n / 10)).length + n / 10) * 10 + n % 10 =
          acc * 10 ^ ((natDigitsRevF fuel (n / 10)).length + 1) + n := by
        have h10 : n / 10 * 10 + n % 10 = n := by omega
        ring_nf
        omega
      simp [this, List.length_append]

theorem parseDigits_renderNat (n : ℕ) : parseDigits (renderNat n) = some n := by
  by_cases hn : n = 0
  · subst hn; decide
  · unfold renderNat parseDigits
    rw [if_neg hn]
    have hne : natDigitsRevF n n ≠ [] := by
      rcases Nat.exists_eq_succ_of_ne_zero hn with ⟨m, hm⟩
      subst hm
      simp [natDigitsRevF]
    rw [if_neg (by simpa using (by simpa using hne : ¬ natDigitsRevF n n = []))]
    rw [parseDigitsAux_natDigitsRevF n n 0 le_rfl]
    simp

theorem natDigitsRevF_length (fuel : ℕ) :
    ∀ n k, n ≤ fuel → n < 10 ^ k → (natDigitsRevF fuel n).length ≤ k := by
  induction fuel with
  | zero => intro n k hn _; interval_cases n; simp [natDigitsRevF]
  | succ fuel ih =>
    intro n k hn hk
    by_cases hn0 : n = 0
    · simp [natDigitsRevF, hn0]
    · cases k with
      | zero =>
        exfalso
        simp at hk
        omega
      | succ k =>
        simp only [natDigitsRevF, if_neg hn0, List.length_cons]
        have hdiv : n / 10 ≤ fuel := by
          have : n / 10 < n := Nat.div_lt_self (Nat.pos_of_ne_zero hn0) (by norm_num)
          omega
        have hklt : n / 10 < 10 ^ k := by
          rw [Nat.div_lt_iff_lt_mul (by norm_num)]
          calc n < 10 ^ (k + 1) := hk
          _ = 10 ^ k * 10 := by ring
        exact Nat.succ_le_succ (ih _ _ hdiv hklt)

theorem renderNat_length_le (n k : ℕ) (hk : 1 ≤ k) (hn : n < 10 ^ k) :
    (renderNat n).length ≤ k := by
  unfold renderNat
  split
  · simpa using hk
  · simpa using natDigitsRevF_length n n k le_rfl hn

theorem parseDigitsAux_replicate_zero (j : ℕ) (cs : List Char) :
    parseDigitsAux (List.replicate j (Char.ofNat 48) ++ cs) 0 = parseDigitsAux cs 0 := by
  induction j with
  | zero => simp
  | succ j ih =>
    have h0 : digitVal (Char.ofNat 48) = some 0 := by decide
    simpa [List.replicate_succ, parseDigitsAux, h0] using ih

theorem renderNat_ne_nil (m : ℕ) : renderNat m ≠ [] := by
  unfold renderNat
  split
  · simp
  · rename_i hm
    rcases Nat.exists_eq_succ_of_ne_zero hm with ⟨j, hj⟩
    subst hj
    simp [natDigitsRevF]

theorem parseDigits_padZeros_renderNat (k m : ℕ) :
    parseDigits (padZeros k (renderNat m)) = some m := by
  have hne : renderNat m ≠ [] := renderNat_ne_nil m
  have hpad : padZeros k (renderNat m) ≠ [] := by
    unfold padZeros
    intro h
    exact hne (List.append_eq_nil.mp h).2
  unfold padZeros parseDigits
  rw [if_neg (by
    simp only [List.isEmpty_iff]
    exact fun h => hne (List.append_eq_nil.mp h).2)]
  rw [parseDigitsAux_replicate_zero]
  have := parseDigits_renderNat m
  unfold parseDigits at this
  rwa [if_neg (by simpa [List.isEmpty_iff] using hne)] at this

theorem padZeros_length (k : ℕ) (cs : List Char) (h : cs.length ≤ k) :
    (padZeros k cs).length = k := by
  unfold padZeros
  simp
  omega

theorem takeWhile_append_of {α : Type} (p : α → Bool) (xs : List α) (y : α) (ys : List α)
    (h : ∀ c ∈ xs, p c = true) (hy : p y = false) :
    (xs ++ y :: ys).takeWhile p = xs := by
  induction xs with
  | nil => simp [List.takeWhile_cons, hy]
  | cons c cs ih =>
    have hc : p c = true := h c (List.mem_cons_self _ _)
    simp only [List.cons_append, List.takeWhile_cons, hc, if_true]
    rw [ih (fun d hd => h d (List.mem_cons_of_mem _ hd))]

theorem dropWhile_append_of {α : Type} (p : α → Bool) (xs : List α) (y : α) (ys : List α)
    (h : ∀ c ∈ xs, p c = true) (hy : p y = false) :
    (xs ++ y :: ys).dropWhile p = y :: ys := by
  induction xs with
  | nil => simp [List.dropWhile_cons, hy]
  | cons c cs ih =>
    have hc : p c = true := h c (List.mem_cons_self _ _)
    simp only [List.cons_append, List.dropWhile_cons, hc, if_true]
    exact ih (fun d hd => h d (List.mem_cons_of_mem _ hd))

theorem stripSign_minus (cs : List Char) : stripSign (Char.ofNat 45 :: cs) = (true, cs) := by
  simp [stripSign]

theorem stripSign_digitHead (c : Char) (cs : List Char) (d : ℕ) (hd : d < 10)
    (hc : c = digitChar d) : stripSign (c :: cs) = (false, c :: cs) := by
  subst hc
  simp [stripSign, digitChar_ne_minus d hd, digitChar_ne_plus d hd]

theorem pyFloatUnsigned_shape (ipn fpn k : ℕ) (hk : 1 ≤ k) (hfp : fpn < 10 ^ k) :
    pyFloatUnsigned (renderNat ipn ++ Char.ofNat 46 :: padZeros k (renderNat fpn)) =
      some ((ipn : ℚ) + (fpn : ℚ) / (10 : ℚ) ^ k) := by
  have hdig : ∀ c ∈ renderNat ipn, (decide (c ≠ Char.ofNat 46)) = true := by
    intro c hc
    obtain ⟨d, hd, rfl⟩ := mem_renderNat _ _ hc
    simp [digitChar_ne_dot d hd]
  have hdot : (decide ((Char.ofNat 46) ≠ Char.ofNat 46)) = false := by simp
  have hipne : ¬ (renderNat ipn).isEmpty = true := by
    simpa [List.isEmpty_iff] using renderNat_ne_nil ipn
  have hfpne : ¬ (padZeros k (renderNat fpn)).isEmpty = true := by
    simp only [List.isEmpty_iff, padZeros]
    intro h
    exact renderNat_ne_nil fpn (List.append_eq_nil.mp h).2
  have hlen : (padZeros k (renderNat fpn)).length = k :=
    padZeros_length k _ (renderNat_length_le fpn k hk hfp)
  simp only [pyFloatUnsigned]
  rw [takeWhile_append_of _ _ _ _ hdig hdot, dropWhile_append_of _ _ _ _ hdig hdot]
  simp only [hipne, hfpne, false_and, if_false, if_neg hipne, if_neg hfpne,
    parseDigits_renderNat, parseDigits_padZeros_renderNat, hlen]
  rw [if_neg (fun h => Bool.false_ne_true h.1)]
  rw [if_neg Bool.false_ne_true, if_neg Bool.false_ne_true]

theorem pyInt?_pyStrInt (n : ℤ) : pyInt? (pyStrInt n) = some n := by
  unfold pyInt? pyStrInt pyIntOfChars
  by_cases hn : n < 0
  · simp only [if_pos hn, List.singleton_append, stripSign_minus, parseDigits_renderNat]
    have : ((n.natAbs : ℤ)) = -n := by omega
    simp [this]
  · simp only [if_neg hn, List.nil_append]
    rcases hr : renderNat n.natAbs with _ | ⟨c, cs⟩
    · exact absurd hr (renderNat_ne_nil _)
    · obtain ⟨d, hd, hc⟩ := mem_renderNat _ c (by rw [hr]; exact List.mem_cons_self _ _)
      rw [stripSign_digitHead c cs d hd hc, ← hr, parseDigits_renderNat]
      have : ((n.natAbs : ℤ)) = n := by omega
      simp [this]


theorem pyFloat?_pyStrFloat (q : ℚ) (hq : IsDec q) : pyFloat? (pyStrFloat q) = some q := by
  unfold IsDec at hq
  have hk1 : 1 ≤ pyFracDigits q := le_max_right _ 1
  have hdvdN : q.den ∣ 10 ^ pyFracDigits q := Nat.dvd_of_mod_eq_zero hq
  have hdvd : ((q.den : ℤ)) ∣ (10 : ℤ) ^ pyFracDigits q := by
    exact_mod_cast Int.natCast_dvd_natCast.mpr hdvdN
  have hdvd2 : (q.den : ℤ) ∣ q.num * (10 : ℤ) ^ pyFracDigits q := Dvd.dvd.mul_left hdvd q.num
  have ht : q.num * (10 : ℤ) ^ pyFracDigits q / q.den * (q.den : ℤ)
      = q.num * (10 : ℤ) ^ pyFracDigits q := Int.ediv_mul_cancel hdvd2
  have hden0 : (q.den : ℚ) ≠ 0 := by exact_mod_cast q.den_pos.ne.symm
  have hQ : ((10 : ℚ)) ^ pyFracDigits q ≠ 0 := by positivity
  have htq : ((q.num * (10 : ℤ) ^ pyFracDigits q / q.den : ℤ) : ℚ)
      = q * (10 : ℚ) ^ pyFracDigits q := by
    have h1 := congrArg (fun z : ℤ => (z : ℚ)) ht
    push_cast at h1
    have h2 : (q.num : ℚ) = q * (q.den : ℚ) := (div_eq_iff hden0).mp (Rat.num_div_den q)
    apply mul_right_cancel₀ hden0
    rw [h1, h2]
    ring
  have hfp : (q.num * (10 : ℤ) ^ pyFracDigits q / q.den).natAbs % 10 ^ pyFracDigits q
      < 10 ^ pyFracDigits q := Nat.mod_lt _ (by positivity)
  have hval : (((q.num * (10 : ℤ) ^ pyFracDigits q / q.den).natAbs / 10 ^ pyFracDigits q : ℕ) : ℚ)
        + (((q.num * (10 : ℤ) ^ pyFracDigits q / q.den).natAbs % 10 ^ pyFracDigits q : ℕ) : ℚ)
          / (10 : ℚ) ^ pyFracDigits q
      = ((q.num * (10 : ℤ) ^ pyFracDigits q / q.den).natAbs : ℚ) / (10 : ℚ) ^ pyFracDigits q := by
    have hm : 10 ^ pyFracDigits q
          * ((q.num * (10 : ℤ) ^ pyFracDigits q / q.den).natAbs / 10 ^ pyFracDigits q)
        + (q.num * (10 : ℤ) ^ pyFracDigits q / q.den).natAbs % 10 ^ pyFracDigits q
      = (q.num * (10 : ℤ) ^ pyFracDigits q / q.den).natAbs :=
      Nat.div_add_mod _ (10 ^ pyFracDigits q)
    have h5 : (q.num * (10 : ℤ) ^ pyFracDigits q / q.den).natAbs / 10 ^ pyFracDigits q
          * 10 ^ pyFracDigits q
        + (q.num * (10 : ℤ) ^ pyFracDigits q / q.den).natAbs % 10 ^ pyFracDigits q
      = (q.num * (10 : ℤ) ^ pyFracDigits q / q.den).natAbs := by
      rw [mul_comm]
      exact hm
    rw [eq_div_iff hQ, add_mul, div_mul_cancel₀ _ hQ]
    exact_mod_cast congrArg (fun n : ℕ => (n : ℚ)) h5
  unfold pyFloat? pyStrFloat pyStrFloatChars
  by_cases hneg : q.num < 0
  · have htneg : q.num * (10 : ℤ) ^ pyFracDigits q / q.den < 0 := by
      by_contra hge
      push_neg at hge
      have hnn : (0 : ℤ) ≤ q.num * (10 : ℤ) ^ pyFracDigits q / q.den * (q.den : ℤ) :=
        mul_nonneg hge (Int.natCast_nonneg _)
      rw [ht] at hnn
      nlinarith [pow_pos (show (0 : ℤ) < 10 by norm_num) (pyFracDigits q)]
    have hta : ((q.num * (10 : ℤ) ^ pyFracDigits q / q.den).natAbs : ℤ)
        = -(q.num * (10 : ℤ) ^ pyFracDigits q / q.den) := by omega
    have haq : (((q.num * (10 : ℤ) ^ pyFracDigits q / q.den).natAbs : ℕ) : ℚ)
        = -(q * (10 : ℚ) ^ pyFracDigits q) := by
      rw [← Int.cast_natCast (R := ℚ), hta, Int.cast_neg, htq]
    rw [if_pos hneg]
    simp only [List.append_assoc, List.singleton_append, List.cons_append, List.nil_append]
    unfold pyFloatOfChars
    rw [stripSign_minus]
    dsimp only
    rw [pyFloatUnsigned_shape _ _ (pyFracDigits q) hk1 hfp]
    simp only [Option.map_some']
    congr 1
    rw [if_pos trivial, hval, haq]
    field_simp
  · have htnn : (0 : ℤ) ≤ q.num * (10 : ℤ) ^ pyFracDigits q / q.den := by
      push_neg at hneg
      exact Int.ediv_nonneg (mul_nonneg hneg (by positivity)) (Int.natCast_nonneg _)
    have hta : ((q.num * (10 : ℤ) ^ pyFracDigits q / q.den).natAbs : ℤ)
        = q.num * (10 : ℤ) ^ pyFracDigits q / q.den := by omega
    have haq : (((q.num * (10 : ℤ) ^ pyFracDigits q / q.den).natAbs : ℕ) : ℚ)
        = q * (10 : ℚ) ^ pyFracDigits q := by
      rw [← Int.cast_natCast (R := ℚ), hta, htq]
    rw [if_neg hneg]
    simp only [List.nil_append, List.append_assoc, List.singleton_append]
    unfold pyFloatOfChars
    rcases hr : renderNat ((q.num * (10 : ℤ) ^ pyFracDigits q / q.den).natAbs
        / 10 ^ pyFracDigits q) with _ | ⟨c, cs⟩
    · exact absurd hr (renderNat_ne_nil _)
    obtain ⟨d, hd, hc⟩ := mem_renderNat _ c (by rw [hr]; exact List.mem_cons_self _ _)
    rw [List.cons_append, stripSign_digitHead c _ d hd hc]
    dsimp only
    rw [← List.cons_append, ← hr, pyFloatUnsigned_shape _ _ (pyFracDigits q) hk1 hfp]
    simp only [Option.map_some']
    congr 1
    rw [if_neg Bool.false_ne_true, hval, haq]
    field_simp

/-! ## Invariant lemmas for the account types -/

theorem Account.make_balance_nonneg (name : String) (b : ℚ) :
    0 ≤ (Account.make name b).balance := by
  unfold Account.make Account.set_balance
  split <;> simp_all

theorem Account.applyOp_balance_nonneg (a : Account) (op : AccOp) (h : 0 ≤ a.balance) :
    0 ≤ (a.applyOp op).balance := by
  cases op with
  | dep q =>
    simp only [Account.applyOp, Account.deposit]
    split <;> simp_all <;> linarith
  | wd q =>
    simp only [Account.applyOp, Account.withdraw, Account.get_balance]
    split <;> simp_all <;> linarith
  | setBal q =>
    simp only [Account.applyOp, Account.set_balance]
    split <;> simp_all

theorem Account.runOps_balance_nonneg (ops : List AccOp) :
    ∀ a : Account, 0 ≤ a.balance → 0 ≤ (Account.runOps a ops).balance := by
  induction ops with
  | nil => intro a h; simpa [Account.runOps] using h
  | cons op ops ih =>
    intro a h
    simpa [Account.runOps, List.foldl_cons] using
      ih (a.applyOp op) (Account.applyOp_balance_nonneg a op h)

theorem SavingsAccount.set_balance_min (s : SavingsAccount) (v : ℚ)
    (h : SavingsAccount.MINIMUM ≤ s.get_balance) :
    SavingsAccount.MINIMUM ≤ (s.set_balance v).get_balance := by
  unfold SavingsAccount.set_balance SavingsAccount.get_balance at *
  split
  · exact h
  · rename_i hge
    push_neg at hge
    rw [if_pos (le_trans (by norm_num [SavingsAccount.MINIMUM]) hge)]
    exact hge

theorem SavingsAccount.set_balance_count (s : SavingsAccount) (v : ℚ) :
    (s.set_balance v).depositCount = s.depositCount := by
  unfold SavingsAccount.set_balance
  split <;> try rfl
  split <;> rfl

theorem SavingsAccount.apply_interest_count (s : SavingsAccount) :
    (s.apply_interest).depositCount = s.depositCount := by
  unfold SavingsAccount.apply_interest
  exact SavingsAccount.set_balance_count _ _

theorem SavingsAccount.make_balance (name : String) :
    (SavingsAccount.make name).get_balance = SavingsAccount.MINIMUM := by
  norm_num [SavingsAccount.make, SavingsAccount.set_balance, SavingsAccount.get_balance,
    SavingsAccount.MINIMUM]

theorem SavingsAccount.make_count (name : String) :
    (SavingsAccount.make name).depositCount = 0 := rfl

theorem SavingsAccount.applyOp_balance_min (s : SavingsAccount) (op : SavOp)
    (h : SavingsAccount.MINIMUM ≤ s.get_balance) :
    SavingsAccount.MINIMUM ≤ (s.applyOp op).get_balance := by
  cases op with
  | dep q =>
    simp only [SavingsAccount.applyOp, SavingsAccount.deposit]
    split
    · rename_i hq
      split
      · apply SavingsAccount.set_balance_min
        simp only [SavingsAccount.get_balance] at h ⊢
        linarith
      · simp only [SavingsAccount.get_balance] at h ⊢
        linarith
    · exact h
  | wd q =>
    simp only [SavingsAccount.applyOp, SavingsAccount.withdraw]
    split
    · rename_i hcond
      split
      · simp only [SavingsAccount.get_balance] at hcond ⊢
        linarith [hcond.2]
      · exact h
    · exact h
  | setBal q => exact SavingsAccount.set_balance_min s q h
  | interest => exact SavingsAccount.set_balance_min s _ h

theorem SavingsAccount.runOps_balance_min (ops : List SavOp) :
    ∀ s : SavingsAccount, SavingsAccount.MINIMUM ≤ s.get_balance →
      SavingsAccount.MINIMUM ≤ (SavingsAccount.runOps s ops).get_balance := by
  induction ops with
  | nil => intro s h; simpa [SavingsAccount.runOps] using h
  | cons op ops ih =>
    intro s h
    simpa [SavingsAccount.runOps, List.foldl_cons] using
      ih (s.applyOp op) (SavingsAccount.applyOp_balance_min s op h)

theorem SavingsAccount.applyOp_count_nonneg (s : SavingsAccount) (op : SavOp)
    (h : 0 ≤ s.depositCount) : 0 ≤ (s.applyOp op).depositCount := by
  cases op with
  | dep q =>
    simp only [SavingsAccount.applyOp, SavingsAccount.deposit]
    split
    · rename_i hq
      split
      · rw [SavingsAccount.apply_interest_count]
        simp only
        omega
      · simp only
        omega
    · exact h
  | wd q =>
    simp only [SavingsAccount.applyOp, SavingsAccount.withdraw]
    split
    · split
      · exact h
      · exact h
    · exact h
  | setBal q => rw [SavingsAccount.applyOp, SavingsAccount.set_balance_count]; exact h
  | interest => rw [SavingsAccount.applyOp, SavingsAccount.apply_interest_count]; exact h

theorem SavingsAccount.runOps_count_nonneg (ops : List SavOp) :
    ∀ s : SavingsAccount, 0 ≤ s.depositCount →
      0 ≤ (SavingsAccount.runOps s ops).depositCount := by
  induction ops with
  | nil => intro s h; simpa [SavingsAccount.runOps] using h
  | cons op ops ih =>
    intro s h
    simpa [SavingsAccount.runOps, List.foldl_cons] using
      ih (s.applyOp op) (SavingsAccount.applyOp_count_nonneg s op h)

theorem Account.applyOp_name (a : Account) (op : AccOp) :
    (a.applyOp op).name = a.name := by
  cases op with
  | dep q =>
    simp only [Account.applyOp, Account.deposit]
    split <;> rfl
  | wd q =>
    simp only [Account.applyOp, Account.withdraw]
    split <;> rfl
  | setBal q =>
    simp only [Account.applyOp, Account.set_balance]
    split <;> rfl

theorem Account.runOps_name (ops : List AccOp) :
    ∀ a : Account, (Account.runOps a ops).name = a.name := by
  induction ops with
  | nil => intro a; rfl
  | cons op ops ih =>
    intro a
    simpa [Account.runOps, List.foldl_cons, Account.applyOp_name] using ih (a.applyOp op)

theorem SavingsAccount.set_balance_name (s : SavingsAccount) (v : ℚ) :
    (s.set_balance v).name = s.name := by
  unfold SavingsAccount.set_balance
  split <;> try rfl
  split <;> rfl

theorem SavingsAccount.applyOp_owner (s : SavingsAccount) (op : SavOp) :
    (s.applyOp op).name = s.name := by
  cases op with
  | dep q =>
    simp only [SavingsAccount.applyOp, SavingsAccount.deposit]
    split
    · rename_i hq
      split
      · rw [SavingsAccount.apply_interest, SavingsAccount.set_balance_name]
      · rfl
    · rfl
  | wd q =>
    simp only [SavingsAccount.applyOp, SavingsAccount.withdraw]
    split
    · split <;> rfl
    · rfl
  | setBal q => exact SavingsAccount.set_balance_name s q
  | interest => rw [SavingsAccount.applyOp, SavingsAccount.apply_interest, SavingsAccount.set_balance_name]

theorem SavingsAccount.runOps_owner (ops : List SavOp) :
    ∀ s : SavingsAccount, (SavingsAccount.runOps s ops).name = s.name := by
  induction ops with
  | nil => intro s; rfl
  | cons op ops ih =>
    intro s
    simpa [SavingsAccount.runOps, List.foldl_cons, SavingsAccount.applyOp_owner] using
      ih (s.applyOp op)

theorem Account.make_name (name : String) (b : ℚ) : (Account.make name b).name = name := by
  unfold Account.make Account.set_balance
  split <;> rfl

theorem SavingsAccount.make_owner (name : String) : (SavingsAccount.make name).name = name := by
  unfold SavingsAccount.make
  rw [SavingsAccount.set_balance_name]

/-! ## The claims -/

/-- C1: Balance floor invariant: for every Account, after any sequence of
deposit/withdraw/setBalance calls starting from construction, the balance
is >= 0; and for every SavingsAccount, after any sequence of public
operations (construction, deposit, withdraw, setBalance, applyInterest),
the balance is >= 100.00. -/
theorem claim_balance_floor_invariant :
    (∀ (name : String) (b : ℚ) (ops : List AccOp),
      0 ≤ (Account.runOps (Account.make name b) ops).get_balance) ∧
    (∀ (name : String) (ops : List SavOp),
      SavingsAccount.MINIMUM ≤ (SavingsAccount.runOps (SavingsAccount.make name) ops).get_balance) := by
  constructor
  · intro name b ops
    exact Account.runOps_balance_nonneg ops _ (Account.make_balance_nonneg name b)
  · intro name ops
    exact SavingsAccount.runOps_balance_min ops _ (le_of_eq (SavingsAccount.make_balance name).symm)

/-- C2: the claim says `setBalance(value)` with `value < MINIMUM` makes
`getBalance` return exactly MINIMUM.  Evaluating the code at a
SavingsAccount with balance 200: `set_balance 50` leaves `get_balance` at
200 (the write lands on the name-mangled shadow attribute
`_SavingsAccount__account_balance`, which `get_balance` never reads), not
at MINIMUM = 100.  The `value >= MINIMUM` half does hold. -/
theorem claim_savings_set_balance_minimum_eval :
    (((SavingsAccount.make "alice").deposit 100).1.set_balance 50).get_balance = 200 ∧
    (50 : ℚ) < SavingsAccount.MINIMUM ∧
    (200 : ℚ) ≠ SavingsAccount.MINIMUM := by
  norm_num [SavingsAccount.make, SavingsAccount.deposit, SavingsAccount.set_balance,
    SavingsAccount.get_balance, SavingsAccount.apply_interest, SavingsAccount.MINIMUM,
    SavingsAccount.RATE]

/-- C3: five deposits of 10 into a fresh SavingsAccount yield balance
153.00; in general every 5th successful deposit (counter becoming a
multiple of 5) applies RATE = 0.02 to the post-deposit balance, after the
amount is added and before deposit returns (stated for states satisfying
the balance-floor invariant of C1). -/
theorem claim_savings_fifth_deposit_interest :
    ((((((SavingsAccount.make "alice").deposit 10).1.deposit 10).1.deposit
        10).1.deposit 10).1.deposit 10).1.get_balance = 153 ∧
    (∀ (s : SavingsAccount) (amount : ℚ), 0 < amount →
      SavingsAccount.MINIMUM ≤ s.get_balance →
      (s.get_deposit_counter + 1) % 5 = 0 →
      (s.deposit amount).2 = true ∧
      (s.deposit amount).1.get_deposit_counter = s.get_deposit_counter + 1 ∧
      (s.deposit amount).1.get_balance
        = (s.get_balance + amount) + (s.get_balance + amount) * SavingsAccount.RATE) := by
  constructor
  · norm_num [SavingsAccount.make, SavingsAccount.deposit, SavingsAccount.set_balance,
      SavingsAccount.apply_interest, SavingsAccount.get_balance, SavingsAccount.MINIMUM,
      SavingsAccount.RATE]
  · intro s amount hpos hmin hcount
    simp only [SavingsAccount.get_deposit_counter] at hcount
    simp only [SavingsAccount.deposit, if_pos hpos, SavingsAccount.get_deposit_counter,
      SavingsAccount.get_balance] at *
    rw [if_pos hcount]
    have hval : ¬ (s.accountBalance + amount) + (s.accountBalance + amount) * SavingsAccount.RATE
        < SavingsAccount.MINIMUM := by
      unfold SavingsAccount.MINIMUM SavingsAccount.RATE at *
      push_neg
      norm_num at hmin ⊢
      linarith
    simp only [SavingsAccount.apply_interest, SavingsAccount.set_balance,
      SavingsAccount.get_balance, if_neg hval]
    rw [if_pos (by unfold SavingsAccount.MINIMUM at hval; push_neg at hval; linarith)]
    exact ⟨trivial, rfl, rfl⟩

/-- Witness for C3's universally quantified part, at the state reached by
four deposits of 10 (balance 140, counter 4) and a fifth deposit of 10. -/
theorem claim_savings_fifth_deposit_interest_witness :
    (0 : ℚ) < 10 ∧
    SavingsAccount.MINIMUM ≤
      ((((((SavingsAccount.make "alice").deposit 10).1.deposit 10).1.deposit
        10).1.deposit 10).1).get_balance ∧
    (((((((SavingsAccount.make "alice").deposit 10).1.deposit 10).1.deposit
        10).1.deposit 10).1).get_deposit_counter + 1) % 5 = 0 ∧
    ((((((SavingsAccount.make "alice").deposit 10).1.deposit 10).1.deposit
        10).1.deposit 10).1.deposit 10).1.get_balance
      = ((((((SavingsAccount.make "alice").deposit 10).1.deposit 10).1.deposit
        10).1.deposit 10).1.get_balance + 10)
        + ((((((SavingsAccount.make "alice").deposit 10).1.deposit 10).1.deposit
        10).1.deposit 10).1.get_balance + 10) * SavingsAccount.RATE := by
  have h10 : (0 : ℚ) < 10 := by norm_num
  have hbal : ((((((SavingsAccount.make "alice").deposit 10).1.deposit 10).1.deposit
      10).1.deposit 10).1).get_balance = 140 := by
    norm_num [SavingsAccount.make, SavingsAccount.deposit, SavingsAccount.set_balance,
      SavingsAccount.apply_interest, SavingsAccount.get_balance, SavingsAccount.MINIMUM,
      SavingsAccount.RATE]
  have hcnt : ((((((SavingsAccount.make "alice").deposit 10).1.deposit 10).1.deposit
      10).1.deposit 10).1).get_deposit_counter = 4 := by
    norm_num [SavingsAccount.make, SavingsAccount.deposit, SavingsAccount.set_balance,
      SavingsAccount.apply_interest, SavingsAccount.get_deposit_counter, SavingsAccount.MINIMUM,
      SavingsAccount.RATE]
  have hmin : SavingsAccount.MINIMUM ≤ ((((((SavingsAccount.make "alice").deposit
      10).1.deposit 10).1.deposit 10).1.deposit 10).1).get_balance := by
    rw [hbal]; norm_num [SavingsAccount.MINIMUM]
  have h := (claim_savings_fifth_deposit_interest.2 _ 10 h10 hmin (by rw [hcnt]; norm_num))
  exact ⟨h10, hmin, by rw [hcnt]; norm_num, h.2.2⟩

/-- C10: for every SavingsAccount state and every value below MINIMUM,
`set_balance` leaves the balance read by `get_balance` unchanged: the
write lands on the shadowed attribute `_SavingsAccount__account_balance`
(set to MINIMUM), while `_Account__account_balance` is untouched. -/
theorem claim_savings_set_balance_shadowed (s : SavingsAccount) (value : ℚ)
    (h : value < SavingsAccount.MINIMUM) :
    (s.set_balance value).get_balance = s.get_balance ∧
    (s.set_balance value).shadowBalance = some SavingsAccount.MINIMUM ∧
    (s.set_balance value).accountBalance = s.accountBalance := by
  unfold SavingsAccount.set_balance SavingsAccount.get_balance
  rw [if_pos h]
  exact ⟨rfl, rfl, rfl⟩

/-- Witness for C10 at a fresh SavingsAccount and value 0. -/
theorem claim_savings_set_balance_shadowed_witness :
    (0 : ℚ) < SavingsAccount.MINIMUM ∧
    ((SavingsAccount.make "bob").set_balance 0).get_balance
      = (SavingsAccount.make "bob").get_balance ∧
    ((SavingsAccount.make "bob").set_balance 0).shadowBalance = some SavingsAccount.MINIMUM := by
  have h0 : (0 : ℚ) < SavingsAccount.MINIMUM := by norm_num [SavingsAccount.MINIMUM]
  have h := claim_savings_set_balance_shadowed (SavingsAccount.make "bob") 0 h0
  exact ⟨h0, h.1, h.2.1⟩

/-- C4 counterexample: the claim says a successful deposit "adds the
amount"; but the 5th successful deposit into a SavingsAccount also
applies interest: from balance 140 (after four deposits of 10), a fifth
deposit of 10 returns true yet yields balance 153, not 140 + 10 = 150. -/
theorem claim_failure_semantics_counterexample :
    ((((((SavingsAccount.make "alice").deposit 10).1.deposit 10).1.deposit
        10).1.deposit 10).1.deposit 10).2 = true ∧
    (((((SavingsAccount.make "alice").deposit 10).1.deposit 10).1.deposit
        10).1.deposit 10).1.get_balance = 140 ∧
    ((((((SavingsAccount.make "alice").deposit 10).1.deposit 10).1.deposit
        10).1.deposit 10).1.deposit 10).1.get_balance = 153 ∧
    (153 : ℚ) ≠ 140 + 10 := by
  norm_num [SavingsAccount.make, SavingsAccount.deposit, SavingsAccount.set_balance,
    SavingsAccount.apply_interest, SavingsAccount.get_balance, SavingsAccount.MINIMUM,
    SavingsAccount.RATE]

/-- C4 amended: failure semantics as claimed — deposit fails exactly on
amount <= 0, withdraw fails exactly on amount <= 0 or amount > balance
(Account) or balance - amount < MINIMUM (SavingsAccount), failures leave
the state unchanged — and on success the amount is added/subtracted,
except that a SavingsAccount deposit whose incremented counter is a
multiple of 5 additionally applies interest (per C3). -/
theorem claim_failure_semantics_amended :
    (∀ (a : Account) (amount : ℚ),
      ((a.deposit amount).2 = false ↔ amount ≤ 0) ∧
      ((a.deposit amount).2 = false → (a.deposit amount).1 = a) ∧
      (0 < amount → (a.deposit amount).1.get_balance = a.get_balance + amount) ∧
      ((a.withdraw amount).2 = false ↔ amount ≤ 0 ∨ a.get_balance < amount) ∧
      ((a.withdraw amount).2 = false → (a.withdraw amount).1 = a) ∧
      ((a.withdraw amount).2 = true →
        (a.withdraw amount).1.get_balance = a.get_balance - amount)) ∧
    (∀ (s : SavingsAccount) (amount : ℚ),
      ((s.deposit amount).2 = false ↔ amount ≤ 0) ∧
      ((s.deposit amount).2 = false → (s.deposit amount).1 = s) ∧
      (0 < amount →
        (s.deposit amount).1.get_deposit_counter = s.get_deposit_counter + 1 ∧
        ((s.get_deposit_counter + 1) % 5 ≠ 0 →
          (s.deposit amount).1.get_balance = s.get_balance + amount)) ∧
      ((s.withdraw amount).2 = false ↔
        amount ≤ 0 ∨ s.get_balance - amount < SavingsAccount.MINIMUM) ∧
      ((s.withdraw amount).2 = false → (s.withdraw amount).1 = s) ∧
      ((s.withdraw amount).2 = true →
        (s.withdraw amount).1.get_balance = s.get_balance - amount ∧
        (s.withdraw amount).1.get_deposit_counter = s.get_deposit_counter)) := by
  have hM : (0 : ℚ) < SavingsAccount.MINIMUM := by norm_num [SavingsAccount.MINIMUM]
  constructor
  · intro a amount
    refine ⟨?_, ?_, ?_, ?_, ?_, ?_⟩
    · unfold Account.deposit
      split <;> rename_i h
      · constructor
        · intro habs; simp at habs
        · intro habs; exact absurd h (by linarith)
      · push_neg at h
        constructor
        · intro _; exact h
        · intro _; rfl
    · unfold Account.deposit
      split
      · intro habs; simp at habs
      · intro _; rfl
    · intro h
      unfold Account.deposit Account.get_balance
      rw [if_pos h]
    · unfold Account.withdraw Account.get_balance
      split <;> rename_i h
      · constructor
        · intro habs; simp at habs
        · intro hor
          rcases hor with h1 | h1
          · exact absurd h.1 (by linarith)
          · exact absurd h.2 (by linarith)
      · constructor
        · intro _
          by_cases h1 : 0 < amount
          · right
            push_neg at h
            exact h h1
          · left; linarith
        · intro _; rfl
    · unfold Account.withdraw
      split
      · intro habs; simp at habs
      · intro _; rfl
    · unfold Account.withdraw Account.get_balance
      split <;> rename_i h
      · intro _; rfl
      · intro habs; simp at habs
  · intro s amount
    refine ⟨?_, ?_, ?_, ?_, ?_, ?_⟩
    · unfold SavingsAccount.deposit
      split <;> rename_i h
      · constructor
        · intro habs; simp at habs
        · intro habs; exact absurd h (by linarith)
      · push_neg at h
        constructor
        · intro _; exact h
        · intro _; rfl
    · unfold SavingsAccount.deposit
      split
      · intro habs; simp at habs
      · intro _; rfl
    · intro h
      simp only [SavingsAccount.deposit, if_pos h, SavingsAccount.get_deposit_counter,
        SavingsAccount.get_balance]
      constructor
      · split
        · rw [SavingsAccount.apply_interest_count]
        · rfl
      · intro h5
        rw [if_neg (by simpa using h5)]
    · unfold SavingsAccount.withdraw SavingsAccount.get_balance
      split <;> rename_i h
      · rw [if_pos ⟨h.1, by linarith [h.1, h.2, hM]⟩]
        constructor
        · intro habs; simp at habs
        · intro hor
          rcases hor with h1 | h1
          · exact absurd h.1 (by linarith)
          · exact absurd h.2 (by linarith)
      · constructor
        · intro _
          by_cases h1 : 0 < amount
          · right
            push_neg at h
            exact h h1
          · left; linarith
        · intro _; rfl
    · unfold SavingsAccount.withdraw
      split <;> rename_i h
      · rw [if_pos ⟨h.1, by
          unfold SavingsAccount.get_balance at *
          linarith [h.1, h.2, hM]⟩]
        intro habs; simp at habs
      · intro _; rfl
    · unfold SavingsAccount.withdraw SavingsAccount.get_balance
      split <;> rename_i h
      · rw [if_pos ⟨h.1, by linarith [h.1, h.2, hM]⟩]
        intro _
        exact ⟨rfl, rfl⟩
      · intro habs; simp at habs

/-- Witness for C4's amended failure semantics at concrete inputs:
an Account with balance 5, a deposit of 3, a withdrawal of 2, and a
SavingsAccount non-5th deposit of 10 and a withdrawal of 20 from
balance 140. -/
theorem claim_failure_semantics_amended_witness :
    ((Account.make "w" 5).deposit 3).1.get_balance = (Account.make "w" 5).get_balance + 3 ∧
    ((Account.make "w" 5).withdraw 2).1.get_balance = (Account.make "w" 5).get_balance - 2 ∧
    ((SavingsAccount.make "w").deposit 10).1.get_balance
      = (SavingsAccount.make "w").get_balance + 10 ∧
    ((((SavingsAccount.make "w").deposit 50).1.withdraw 20).1).get_balance
      = ((SavingsAccount.make "w").deposit 50).1.get_balance - 20 := by
  have hacc := claim_failure_semantics_amended.1 (Account.make "w" 5)
  have hsav := claim_failure_semantics_amended.2 (SavingsAccount.make "w")
  have hsav2 := claim_failure_semantics_amended.2 ((SavingsAccount.make "w").deposit 50).1
  refine ⟨(hacc 3).2.2.1 (by norm_num), ?_, ?_, ?_⟩
  · apply (hacc 2).2.2.2.2.2
    unfold Account.make Account.set_balance Account.withdraw Account.get_balance
    norm_num
  · have h := ((hsav 10).2.2.1 (by norm_num)).2
    apply h
    norm_num [SavingsAccount.make, SavingsAccount.get_deposit_counter]
  · apply ((hsav2 20).2.2.2.2.2 ?_).1
    have hb : ((SavingsAccount.make "w").deposit 50).1.get_balance = 150 := by
      norm_num [SavingsAccount.make, SavingsAccount.deposit, SavingsAccount.set_balance,
        SavingsAccount.apply_interest, SavingsAccount.get_balance, SavingsAccount.MINIMUM,
        SavingsAccount.RATE]
    unfold SavingsAccount.withdraw
    rw [if_pos ⟨by norm_num, by rw [hb]; norm_num [SavingsAccount.MINIMUM]⟩]
    rw [if_pos ⟨by norm_num, by rw [hb]; norm_num⟩]

/-- C9 counterexample: `Account.set_name` is a public operation that does
change the owner identity returned by `get_name`. -/
theorem claim_owner_immutable_counterexample :
    ((Account.make "alice" 0).set_name "bob").get_name = "bob" ∧
    (Account.make "alice" 0).get_name = "alice" ∧
    ("bob" : String) ≠ "alice" := by
  refine ⟨rfl, ?_, by decide⟩
  rw [Account.get_name, Account.make_name]

/-- C9 amended: the owner is preserved by every public operation except
`set_name` — deposits, withdrawals, balance sets and interest never
change `get_name` from the constructed value — while `set_name` replaces
it (and no other code in the program calls `set_name`). -/
theorem claim_owner_immutable_amended :
    (∀ (name : String) (b : ℚ) (ops : List AccOp),
      (Account.runOps (Account.make name b) ops).get_name = name) ∧
    (∀ (name : String) (ops : List SavOp),
      (SavingsAccount.runOps (SavingsAccount.make name) ops).get_name = name) ∧
    (∀ (a : Account) (v : String), (a.set_name v).get_name = v) := by
  refine ⟨?_, ?_, fun a v => rfl⟩
  · intro name b ops
    rw [Account.get_name, Account.runOps_name, Account.make_name]
  · intro name ops
    rw [SavingsAccount.get_name, SavingsAccount.runOps_owner, SavingsAccount.make_owner]

/-! ## Store-level lemmas and claims -/

theorem updateRow_user (user : String) (account : Account) (savings_account : SavingsAccount)
    (r : Row) : (updateRow user account savings_account r).user = r.user := by
  unfold updateRow
  split <;> rfl

theorem pyFracDigits_natCast (n : ℕ) : pyFracDigits (n : ℚ) = 1 := by
  unfold pyFracDigits decExp
  rw [Rat.den_natCast]
  rfl

theorem pyStrFloat_natCast (n : ℕ) :
    pyStrFloat (n : ℚ) = ⟨renderNat n ++ [Char.ofNat 46, Char.ofNat 48]⟩ := by
  unfold pyStrFloat pyStrFloatChars
  rw [pyFracDigits_natCast, Rat.num_natCast, Rat.den_natCast]
  have h1 : ((n : ℤ) * 10 ^ 1 / ((1 : ℕ) : ℤ)).natAbs = n * 10 := by
    simp [Int.natAbs_mul]
  rw [h1, if_neg (not_lt.mpr (Int.natCast_nonneg n))]
  have h4 : n * 10 / 10 ^ 1 = n := by simp
  have h5 : n * 10 % 10 ^ 1 = 0 := by simp
  rw [h4, h5]
  congr 1
  simp [padZeros, renderNat]

theorem specTwoDecimalRender_natCast (n : ℕ) :
    specTwoDecimalRender (n : ℚ)
      = ⟨renderNat n ++ [Char.ofNat 46, Char.ofNat 48, Char.ofNat 48]⟩ := by
  unfold specTwoDecimalRender
  rw [Rat.num_natCast, Rat.den_natCast]
  have h1 : ((n : ℤ) * 100 / ((1 : ℕ) : ℤ)).natAbs = n * 100 := by
    simp [Int.natAbs_mul]
  rw [h1, if_neg (not_lt.mpr (Int.natCast_nonneg n))]
  have h4 : n * 100 / 100 = n := by simp
  have h5 : n * 100 % 100 = 0 := by simp
  rw [h4, h5]
  congr 1
  have : padZeros 2 (renderNat 0) = [Char.ofNat 48, Char.ofNat 48] := by decide
  rw [this]
  simp

theorem pyStrFloat_natCast_ne_twoDecimal (n : ℕ) :
    pyStrFloat (n : ℚ) ≠ specTwoDecimalRender (n : ℚ) := by
  rw [pyStrFloat_natCast, specTwoDecimalRender_natCast]
  intro h
  have h2 := congrArg (fun s : String => s.data.length) h
  simp at h2

theorem pyStrInt_nonneg (d : ℤ) (h : 0 ≤ d) : pyStrInt d = ⟨renderNat d.natAbs⟩ := by
  unfold pyStrInt
  rw [if_neg (not_lt.mpr h)]
  rfl

/-- C5: saving an owner's state (account balance, savings deposit counter,
savings balance) and reloading it via the record store reproduces the
same values.  The decimal-representability hypotheses hold for every
value an IEEE double can take (their denominators are powers of two), and
the non-negativity hypothesis is the Account invariant of C1. -/
theorem claim_save_load_roundtrip (user : String) (account : Account) (deposit_counter : ℤ)
    (savings_account : SavingsAccount) (f : CSVFile)
    (hrec : f.rows.any (fun r => r.user == user) = true)
    (hdec : IsDec account.get_balance) (hnn : 0 ≤ account.get_balance)
    (hdecs : IsDec savings_account.get_balance) :
    get_user_details user
        (set_account_details user account deposit_counter savings_account (some f))
      = Except.ok (Account.make user account.get_balance,
          savings_account.get_deposit_counter, savings_account.get_balance) ∧
    (Account.make user account.get_balance).get_balance = account.get_balance := by
  constructor
  · simp only [set_account_details, get_user_details]
    rw [List.find?_map]
    have hpred : ((fun r => r.user == user) ∘ updateRow user account savings_account)
        = (fun r : Row => r.user == user) := by
      funext r
      simp [Function.comp, updateRow_user]
    rw [hpred]
    have hex : ∃ r ∈ f.rows, (fun r : Row => r.user == user) r = true := by
      simpa using List.any_eq_true.mp hrec
    obtain ⟨r0, hr0⟩ := Option.isSome_iff_exists.mp (List.find?_isSome.mpr hex)
    rw [hr0]
    have hu := List.find?_some hr0
    simp only [Option.map_some', updateRow, if_pos hu]
    rw [pyFloat?_pyStrFloat _ hdec, pyInt?_pyStrInt, pyFloat?_pyStrFloat _ hdecs]
  · unfold Account.make Account.set_balance Account.get_balance at *
    rw [if_pos hnn]

/-- Witness for C5 at a one-row store for owner "u", a main account with
balance 50 and a fresh savings account. -/
theorem claim_save_load_roundtrip_witness :
    get_user_details "u"
        (set_account_details "u" (Account.make "u" 50) 7 (SavingsAccount.make "u")
          (some { header := true,
                  rows := [{ user := "u", password := "p", balance := "0.0",
                             deposit_counter := "0", savings_balance := "0.0" }] }))
      = Except.ok (Account.make "u" (Account.make "u" 50).get_balance,
          (SavingsAccount.make "u").get_deposit_counter,
          (SavingsAccount.make "u").get_balance) ∧
    (Account.make "u" (Account.make "u" 50).get_balance).get_balance
      = (Account.make "u" 50).get_balance := by
  have hb : (Account.make "u" 50).get_balance = 50 := by
    norm_num [Account.make, Account.set_balance, Account.get_balance]
  have hs : (SavingsAccount.make "u").get_balance = 100 := by
    rw [SavingsAccount.make_balance]
    norm_num [SavingsAccount.MINIMUM]
  exact claim_save_load_roundtrip "u" (Account.make "u" 50) 7 (SavingsAccount.make "u") _
    (by decide) (by rw [hb]; decide) (by rw [hb]; norm_num) (by rw [hs]; decide)

/-- C6: registering an existing owner fails with DuplicateOwner and
leaves the store unchanged; registering a new owner appends exactly one
record whose balance, deposit counter and savings balance all parse to 0,
creating the backing store with a header row when it is absent. -/
theorem claim_duplicate_owner_registration (user password : String) (store : Store) :
    ((∃ f, store = some f ∧ f.rows.any (fun r => r.user == user) = true) →
      add_user user password store = (some RegErr.duplicateOwner, store)) ∧
    (store = none →
      add_user user password store
        = (none, some { header := true, rows := [newUserRow user password] })) ∧
    (∀ f, store = some f → f.rows.any (fun r => r.user == user) = false → f.header = true →
      add_user user password store
        = (none, some { header := true, rows := f.rows ++ [newUserRow user password] })) ∧
    pyFloat? (newUserRow user password).balance = some 0 ∧
    pyInt? (newUserRow user password).deposit_counter = some 0 ∧
    pyFloat? (newUserRow user password).savings_balance = some 0 := by
  refine ⟨?_, ?_, ?_, ?_, ?_, ?_⟩
  · rintro ⟨f, rfl, hex⟩
    simp [add_user, hex]
  · rintro rfl
    rfl
  · intro f hsf hex hh
    subst hsf
    simp [add_user, hex, hh]
  · simpa [newUserRow] using pyFloat?_pyStrFloat 0 (by decide)
  · simpa [newUserRow] using pyInt?_pyStrInt 0
  · simpa [newUserRow] using pyFloat?_pyStrFloat 0 (by decide)

/-- Witness for C6: duplicate registration at a one-row store for "u",
and fresh registration on an absent store. -/
theorem claim_duplicate_owner_registration_witness :
    add_user "u" "pw"
        (some { header := true,
                rows := [{ user := "u", password := "p", balance := "0.0",
                           deposit_counter := "0", savings_balance := "0.0" }] })
      = (some RegErr.duplicateOwner,
          some { header := true,
                 rows := [{ user := "u", password := "p", balance := "0.0",
                            deposit_counter := "0", savings_balance := "0.0" }] }) ∧
    add_user "v" "pw" none = (none, some { header := true, rows := [newUserRow "v" "pw"] }) := by
  constructor
  · exact (claim_duplicate_owner_registration "u" "pw" _).1 ⟨_, rfl, by decide⟩
  · exact (claim_duplicate_owner_registration "v" "pw" none).2.1 rfl

/-- C7: loadAccount fails with NotFound when the store is absent or no
record matches, fails with the distinguishable MalformedRecord error when
a matching record has an unparseable numeric field, and on success
returns the owner's Account, deposit counter and savings balance. -/
theorem claim_load_error_taxonomy (user : String) (store : Store) :
    (store = none → get_user_details user store = Except.error LoadErr.notFound) ∧
    (∀ f, store = some f → f.rows.find? (fun r => r.user == user) = none →
      get_user_details user store = Except.error LoadErr.notFound) ∧
    (∀ f r, store = some f → f.rows.find? (fun r => r.user == user) = some r →
      ((pyFloat? r.balance = none ∨ pyInt? r.deposit_counter = none ∨
          pyFloat? r.savings_balance = none) →
        get_user_details user store = Except.error LoadErr.malformedRecord) ∧
      (∀ b d sb, pyFloat? r.balance = some b → pyInt? r.deposit_counter = some d →
        pyFloat? r.savings_balance = some sb →
        get_user_details user store = Except.ok (Account.make user b, d, sb))) := by
  refine ⟨?_, ?_, ?_⟩
  · rintro rfl
    rfl
  · intro f hsf hna
    subst hsf
    simp [get_user_details, hna]
  · intro f r hsf hfind
    subst hsf
    constructor
    · intro hbad
      simp only [get_user_details, hfind]
      rcases h1 : pyFloat? r.balance with _ | b <;>
        rcases h2 : pyInt? r.deposit_counter with _ | d <;>
        rcases h3 : pyFloat? r.savings_balance with _ | sb <;>
        simp_all
    · intro b d sb hb hd hsb
      simp [get_user_details, hfind, hb, hd, hsb]

/-- Witness for C7: an absent store, a store without the owner, a store
with an unparseable balance cell, and a store with parseable cells. -/
theorem claim_load_error_taxonomy_witness :
    get_user_details "u" none = Except.error LoadErr.notFound ∧
    get_user_details "u" (some { header := true, rows := [] })
      = Except.error LoadErr.notFound ∧
    get_user_details "u"
        (some { header := true,
                rows := [{ user := "u", password := "p", balance := "abc",
                           deposit_counter := "0", savings_balance := "0.0" }] })
      = Except.error LoadErr.malformedRecord ∧
    get_user_details "u"
        (some { header := true,
                rows := [{ user := "u", password := "p", balance := pyStrFloat 2,
                           deposit_counter := pyStrInt 3, savings_balance := pyStrFloat 100 }] })
      = Except.ok (Account.make "u" 2, 3, 100) := by
  refine ⟨(claim_load_error_taxonomy "u" none).1 rfl, ?_, ?_, ?_⟩
  · exact (claim_load_error_taxonomy "u" _).2.1
      { header := true, rows := [] } rfl (by decide)
  · exact ((claim_load_error_taxonomy "u" _).2.2
      { header := true,
        rows := [{ user := "u", password := "p", balance := "abc",
                   deposit_counter := "0", savings_balance := "0.0" }] }
      { user := "u", password := "p", balance := "abc",
        deposit_counter := "0", savings_balance := "0.0" }
      rfl (by decide)).1 (Or.inl (by decide))
  · exact ((claim_load_error_taxonomy "u" _).2.2
      { header := true,
        rows := [{ user := "u", password := "p", balance := pyStrFloat 2,
                   deposit_counter := pyStrInt 3, savings_balance := pyStrFloat 100 }] }
      { user := "u", password := "p", balance := pyStrFloat 2,
        deposit_counter := pyStrInt 3, savings_balance := pyStrFloat 100 }
      rfl (by decide)).2 2 3 100
      (pyFloat?_pyStrFloat 2 (by decide)) (pyInt?_pyStrInt 3)
      (pyFloat?_pyStrFloat 100 (by decide))

/-- C8 counterexample: saving an account with balance 153 writes the
balance cell as "153.0" — Python `str()` of the float — not as the
two-decimal "153.00" that the claim requires. -/
theorem claim_two_decimal_render_counterexample :
    set_account_details "alice" (Account.make "alice" 153) 0 (SavingsAccount.make "alice")
        (some { header := true,
                rows := [{ user := "alice", password := "pw", balance := "0.0",
                           deposit_counter := "0", savings_balance := "0.0" }] })
      = some { header := true,
               rows := [{ user := "alice", password := "pw", balance := "153.0",
                          deposit_counter := "0", savings_balance := "100.0" }] } ∧
    specTwoDecimalRender (Account.make "alice" 153).get_balance = "153.00" ∧
    ("153.0" : String) ≠ "153.00" := by
  have hb : (Account.make "alice" 153).get_balance = 153 := by
    norm_num [Account.make, Account.set_balance, Account.get_balance]
  have hs : (SavingsAccount.make "alice").get_balance = 100 := by
    rw [SavingsAccount.make_balance]
    norm_num [SavingsAccount.MINIMUM]
  have hcnt : (SavingsAccount.make "alice").get_deposit_counter = 0 := rfl
  refine ⟨?_, ?_, by decide⟩
  · simp only [set_account_details, List.map_cons, List.map_nil, updateRow, hb, hs, hcnt]
    rw [if_pos (by decide : (("alice" : String) == "alice") = true)]
    rw [show pyStrFloat 153 = "153.0" from by decide,
      show pyStrFloat 100 = "100.0" from by decide,
      show pyStrInt 0 = "0" from by decide]
  · rw [hb]
    decide

/-- C8 amended: on every save the matching row's cells are written with
Python `str(...)`: the money fields use the minimal number of fractional
digits (at least one), so an integer-valued amount is written as "N.0" —
never the two-decimal "N.00" — and the deposit_counter cell is the plain
decimal rendering of the savings account's counter, which is non-negative
in every reachable SavingsAccount state. -/
theorem claim_store_rendering_amended :
    (∀ (user : String) (account : Account) (savings_account : SavingsAccount) (r : Row),
      (r.user == user) = true →
      (updateRow user account savings_account r).balance = pyStrFloat account.get_balance ∧
      (updateRow user account savings_account r).deposit_counter
        = pyStrInt savings_account.get_deposit_counter ∧
      (updateRow user account savings_account r).savings_balance
        = pyStrFloat savings_account.get_balance) ∧
    (∀ n : ℕ,
      pyStrFloat (n : ℚ) = String.mk (renderNat n ++ [Char.ofNat 46, Char.ofNat 48]) ∧
      pyStrFloat (n : ℚ) ≠ specTwoDecimalRender (n : ℚ)) ∧
    (∀ d : ℤ, 0 ≤ d → pyStrInt d = String.mk (renderNat d.natAbs)) ∧
    (∀ (name : String) (ops : List SavOp),
      0 ≤ (SavingsAccount.runOps (SavingsAccount.make name) ops).get_deposit_counter) := by
  refine ⟨?_, ?_, pyStrInt_nonneg, ?_⟩
  · intro user account savings_account r hu
    unfold updateRow
    rw [if_pos hu]
    exact ⟨rfl, rfl, rfl⟩
  · intro n
    exact ⟨pyStrFloat_natCast n, pyStrFloat_natCast_ne_twoDecimal n⟩
  · intro name ops
    exact SavingsAccount.runOps_count_nonneg ops _ (le_of_eq (SavingsAccount.make_count name).symm)

/-- Witness for C8's amended statement at a matching row, the value 153
and the counter 0. -/
theorem claim_store_rendering_amended_witness :
    (updateRow "alice" (Account.make "alice" 153) (SavingsAccount.make "alice")
        { user := "alice", password := "pw", balance := "0.0",
          deposit_counter := "0", savings_balance := "0.0" }).balance
      = pyStrFloat (Account.make "alice" 153).get_balance ∧
    pyStrFloat ((153 : ℕ) : ℚ) ≠ specTwoDecimalRender ((153 : ℕ) : ℚ) ∧
    pyStrInt 0 = String.mk (renderNat (0 : ℤ).natAbs) := by
  refine ⟨?_, (claim_store_rendering_amended.2.1 153).2, claim_store_rendering_amended.2.2.1 0 le_rfl⟩
  exact (claim_store_rendering_amended.1 "alice" (Account.make "alice" 153)
    (SavingsAccount.make "alice") _ (by decide)).1
